import Mathlib

/-!
# Verification of the tiny-cart order/inventory workflow

A shallow embedding of the tiny-cart backend (FastAPI/SQLModel) in Lean 4.

* `app/db/models.py` — `Product`, `Order`, `User` rows become Lean structures;
  UUID primary keys become `Nat` identifiers drawn from a fresh-id counter.
* `app/crud/orders.py` — `OrderCrud.verify_product_stock`,
  `OrderCrud.update_product_stock`, `OrderCrud.create`, `OrderCrud.update`,
  `OrderCrud.delete`.
* `app/crud/products.py` — `ProductCrud.update`.
* `app/crud/base.py` — the generic `APICrudBase.get_all`, `update`, `delete`.
* `app/crud/users.py` — `UserCrud.get_orders` (the clamped pagination),
  `UserCrud.create`.
* `app/api/routes/auth.py`, `app/core/security.py`, `app/utils.py` — login,
  token issue/verify, password hashing.

The database session is modelled as an explicit state (`DB`): `save`
replaces the row with the matching primary key, `delete` removes it, and
each statement commits immediately (the source uses auto-commit per
statement, no enclosing transaction).  Fallible operations return
`Except HTTPError` mirroring the `HTTPException(status_code, detail)`
raised by the source.  Python's `UnboundLocalError` (reachable in
`OrderCrud.create` on an empty item list) is a separate error constructor.

`unit_price` (a Python float / SQL numeric) and the created/updated
timestamps are not used by any property below and are omitted from the row
structures; every other field of the source rows is kept.
-/

/-- `fastapi.HTTPException`: a status code plus a human-readable detail. -/
structure HTTPError where
  status_code : Nat
  detail : String
deriving DecidableEq, Repr

/-- An error escaping an endpoint: either an `HTTPException` or Python's
`UnboundLocalError` (a variable read before any assignment). -/
inductive PyError where
  | http (e : HTTPError)
  | unboundLocal
deriving DecidableEq, Repr

/-- `Product` row from `app/db/models.py`. -/
structure Product where
  product_id : Nat
  name : String
  description : String
  in_stock : Bool
  number_in_stock : Int
  product_owner_id : Nat
deriving DecidableEq, Repr

/-- `Order` row from `app/db/models.py` (semantically one order line). -/
structure Order where
  order_id : Nat
  product_id : Nat
  user_id : Nat
  quantity : Int
deriving DecidableEq, Repr

/-- `schemas.OrderProductCreate`: one `(quantity, product_id)` item of an
order-creation or order-update request. -/
structure OrderProductCreate where
  quantity : Int
  product_id : Nat
deriving DecidableEq, Repr

/-- The relational store visible to the order engine: product rows, order
rows, and a counter supplying fresh primary keys (standing in for
`uuid4`). -/
structure DB where
  products : List Product
  orders : List Order
  next_id : Nat
deriving DecidableEq, Repr

/-- `Session.get(Product, id)`: the product row with the given key. -/
def find_product (db : DB) (pid : Nat) : Option Product :=
  db.products.find? (fun p => p.product_id == pid)

/-- `Session.get(Order, id)`: the order row with the given key. -/
def find_order (db : DB) (oid : Nat) : Option Order :=
  db.orders.find? (fun o => o.order_id == oid)

/-- `ProductCrud.get_by_id` / `APICrudBase.get_by_id`: 404 when absent. -/
def product_get_by_id (db : DB) (pid : Nat) : Except HTTPError Product :=
  match find_product db pid with
  | some p => .ok p
  | none => .error ⟨404, "product not found"⟩

/-- `OrderCrud.get_by_id`: 404 when absent. -/
def order_get_by_id (db : DB) (oid : Nat) : Except HTTPError Order :=
  match find_order db oid with
  | some o => .ok o
  | none => .error ⟨404, "order not found"⟩

/-- `product.save(db)`: write the (mutated) product row back; the row with
the same primary key is replaced. -/
def save_product (db : DB) (p : Product) : DB :=
  { db with
    products := db.products.map
      (fun q => if q.product_id == p.product_id then p else q) }

/-- `order.save(db)` for an existing row. -/
def save_order (db : DB) (o : Order) : DB :=
  { db with
    orders := db.orders.map
      (fun q => if q.order_id == o.order_id then o else q) }

/-- `OrderCrud.verify_product_stock`: 409 Conflict when `in_stock` is false,
400 when fewer than `quantity` items remain. -/
def verify_product_stock (product : Product) (quantity : Int) :
    Except HTTPError Unit :=
  if product.in_stock = false then
    .error ⟨409, "Product " ++ product.name ++ " is out of stock"⟩
  else if product.number_in_stock < quantity then
    .error ⟨400, "Product " ++ product.name ++ " has only " ++
      toString product.number_in_stock ++ " items left"⟩
  else
    .ok ()

/-- `OrderCrud.update_product_stock`: subtract `quantity`; when the count
reaches exactly 0, clear `in_stock`. -/
def update_product_stock (product : Product) (quantity : Int) : Product :=
  let p := { product with number_in_stock := product.number_in_stock - quantity }
  if p.number_in_stock = 0 then { p with in_stock := false } else p

/-- One iteration of the loop in `OrderCrud.create`: load the product (404),
verify stock, persist the new order line, then decrement and persist the
product.  On error nothing has been written for this item. -/
def order_create_item (db : DB) (user_id : Nat) (it : OrderProductCreate) :
    Except HTTPError (DB × Order) :=
  match product_get_by_id db it.product_id with
  | .error e => .error e
  | .ok db_product =>
    match verify_product_stock db_product it.quantity with
    | .error e => .error e
    | .ok _ =>
      let line : Order :=
        { order_id := db.next_id
          product_id := it.product_id
          user_id := user_id
          quantity := it.quantity }
      let db1 : DB :=
        { db with orders := db.orders ++ [line], next_id := db.next_id + 1 }
      .ok (save_product db1 (update_product_stock db_product it.quantity),
        line)

/-- The loop of `OrderCrud.create`.  The accumulator is the Python local
`new_order_product`, unbound (`none`) before the first iteration.  Because
every statement auto-commits, an error mid-list keeps the writes of the
earlier iterations; the state returned alongside the error is the one
committed so far. -/
def order_create_loop (user_id : Nat) :
    DB → List OrderProductCreate → Option Order → DB × Except PyError Order
  | db, [], none => (db, .error .unboundLocal)
  | db, [], some last => (db, .ok last)
  | db, it :: rest, acc =>
    match order_create_item db user_id it with
    | .error e =>
      let _ := acc
      (db, .error (.http e))
    | .ok (db', line) => order_create_loop user_id db' rest (some line)

/-- `OrderCrud.create(db, order, user_id)`: iterate over `order.orders` and
return `new_order_product`, the line created by the last iteration. -/
def order_create (db : DB) (order : List OrderProductCreate) (user_id : Nat) :
    DB × Except PyError Order :=
  order_create_loop user_id db order none

/-- `OrderCrud.delete(db, order_id, user_id)`: 404 when absent, 403 when the
caller is not the line's buyer, otherwise remove the row.  The product rows
are never touched. -/
def order_delete (db : DB) (order_id : Nat) (user_id : Nat) :
    Except HTTPError DB :=
  match order_get_by_id db order_id with
  | .error e => .error e
  | .ok db_order =>
    if db_order.user_id ≠ user_id then
      .error ⟨403, "You are not authorized to delete this order"⟩
    else
      .ok { db with
            orders := db.orders.filter (fun o => o.order_id != order_id) }

/-- One iteration of the loop in `OrderCrud.update`: re-verify stock,
overwrite the existing line's fields (`sqlmodel_update` with the item's
`product_id` and `quantity`), then decrement and persist the product. -/
def order_update_item (state : DB × Order) (it : OrderProductCreate) :
    Except HTTPError (DB × Order) :=
  match product_get_by_id state.1 it.product_id with
  | .error e => .error e
  | .ok db_product =>
    match verify_product_stock db_product it.quantity with
    | .error e => .error e
    | .ok _ =>
      let line' :=
        { state.2 with product_id := it.product_id, quantity := it.quantity }
      let db1 := save_order state.1 line'
      .ok (save_product db1 (update_product_stock db_product it.quantity),
        line')

/-- The loop of `OrderCrud.update`, folding `order_update_item` over the
submitted items.  As in `order_create_loop`, every statement auto-commits,
so an error mid-list keeps the writes of the earlier iterations: the store
is returned alongside the error as committed so far. -/
def order_update_loop (state : DB × Order) :
    List OrderProductCreate → DB × Except HTTPError Order
  | [] => (state.1, .ok state.2)
  | it :: rest =>
    match order_update_item state it with
    | .error e => (state.1, .error e)
    | .ok state' => order_update_loop state' rest

/-- `OrderCrud.update(db, order_id, orders, user_id)`: load the line (404),
check the buyer (403), then re-run the stock logic for each submitted item,
overwriting the single line each time.  The returned store is the one
committed when the call finishes, also when it finishes by raising. -/
def order_update (db : DB) (order_id : Nat)
    (orders : List OrderProductCreate) (user_id : Nat) :
    DB × Except HTTPError Order :=
  match order_get_by_id db order_id with
  | .error e => (db, .error e)
  | .ok db_order =>
    if db_order.user_id ≠ user_id then
      (db, .error ⟨403, "You are not authorized to update this order"⟩)
    else
      order_update_loop (db, db_order) orders

/-- The stock invariant of `spec.md` §3: a non-negative count, with the
flag true exactly when the count is positive. -/
def stock_invariant (p : Product) : Prop :=
  0 ≤ p.number_in_stock ∧ p.in_stock = decide (0 < p.number_in_stock)

instance (p : Product) : Decidable (stock_invariant p) := by
  unfold stock_invariant
  infer_instance

deriving instance DecidableEq for Except

/-- `schemas.ProductCreate`: the fields of a product-creation request.
`in_stock` and `number_in_stock` are both supplied by the caller,
independently of each other. -/
structure ProductCreate where
  description : String
  name : String
  in_stock : Bool
  number_in_stock : Int
  product_owner_id : Nat
deriving DecidableEq, Repr

/-- `ProductCrud.create` (the product-row part; the image rows it also
inserts live outside this store model and never touch the product's own
fields): persist a new product row carrying the submitted fields
verbatim, with a fresh primary key. -/
def product_create (db : DB) (product : ProductCreate) : DB × Product :=
  let p : Product :=
    { product_id := db.next_id
      name := product.name
      description := product.description
      in_stock := product.in_stock
      number_in_stock := product.number_in_stock
      product_owner_id := product.product_owner_id }
  ({ db with products := db.products ++ [p], next_id := db.next_id + 1 }, p)

/-- `schemas.ProductUpdate`: the optional fields carried by a product
update request (`None` = field not set).  `product_owner_id` is required
by the schema; the route always fills it with the caller's id. -/
structure ProductUpdate where
  description : Option String := none
  name : Option String := none
  in_stock : Option Bool := none
  number_in_stock : Option Int := none
  product_owner_id : Nat
deriving DecidableEq, Repr

/-- `db_product.sqlmodel_update(product.model_dump(exclude_unset=True))`:
overwrite exactly the fields that were set in the request. -/
def apply_product_update (p : Product) (u : ProductUpdate) : Product :=
  { p with
    description := u.description.getD p.description
    name := u.name.getD p.name
    in_stock := u.in_stock.getD p.in_stock
    number_in_stock := u.number_in_stock.getD p.number_in_stock }

/-- `ProductCrud.update` (image handling aside, which never touches the
product's own fields): load (404), check ownership against the product's
`product_owner_id` (403), then apply the set fields verbatim and save. -/
def product_update (db : DB) (product_id : Nat) (product : ProductUpdate) :
    Except HTTPError (DB × Product) :=
  match product_get_by_id db product_id with
  | .error e => .error e
  | .ok db_product =>
    if product.product_owner_id ≠ db_product.product_owner_id then
      .error ⟨403, "You are not authorized to update this product"⟩
    else
      let p' := apply_product_update db_product product
      .ok (save_product db p', p')

/-- `settings.pagination_limit` (the configured maximum page size). -/
def settings_pagination_limit : Nat := 100

/-- `settings.pagination_default_page` (the default page size). -/
def settings_pagination_default_page : Nat := 10

/-- `APICrudBase.get_all` without ordering/join: the query
`select(model).offset(skip).limit(limit)` over the stored rows.  The
caller's `limit` is applied as given. -/
def base_get_all {α : Type} (rows : List α) (skip limit : Nat) : List α :=
  (rows.drop skip).take limit

/-- `UserCrud.get_orders`: clamp `limit` to `settings.pagination_limit`,
then slice the user's order list (`user.orders[skip : skip + limit]`). -/
def user_get_orders (user_orders : List Order) (skip limit : Nat) :
    List Order :=
  let lim := min limit settings_pagination_limit
  (user_orders.drop skip).take lim

/-- A generic row as seen by `APICrudBase`: a primary key plus payload
fields (two string fields stand for an arbitrary column set whose model
class does not override `save`). -/
structure Row where
  row_id : Nat
  field_a : String
  field_b : String
deriving DecidableEq, Repr

/-- A partial schema for `Row`: each field optionally set. -/
structure RowPatch where
  field_a : Option String := none
  field_b : Option String := none
deriving DecidableEq, Repr

/-- `sqlmodel_update(schema.model_dump(exclude_unset=True))` on a generic
row: overwrite exactly the set fields. -/
def row_sqlmodel_update (r : Row) (schema : RowPatch) : Row :=
  { r with
    field_a := schema.field_a.getD r.field_a
    field_b := schema.field_b.getD r.field_b }

/-- `APICrudBase.get_by_id` over generic rows. -/
def row_get_by_id (rows : List Row) (obj_id : Nat) : Except HTTPError Row :=
  match rows.find? (fun r => r.row_id == obj_id) with
  | some r => .ok r
  | none => .error ⟨404, "row not found"⟩

/-- `APICrudBase.update`: load (404), compare `obj_owner_id != obj_id`
(403), then apply the set fields and save the row back. -/
def base_update (rows : List Row) (schema : RowPatch)
    (obj_id obj_owner_id : Nat) : Except HTTPError (List Row × Row) :=
  match row_get_by_id rows obj_id with
  | .error e => .error e
  | .ok db_obj =>
    if obj_owner_id ≠ obj_id then
      .error ⟨403, "You are not authorized to update this row"⟩
    else
      let r' := row_sqlmodel_update db_obj schema
      .ok (rows.map (fun v => if v.row_id == obj_id then r' else v), r')

/-- `APICrudBase.delete`: load (404), compare `obj_owner_id != obj_id`
(403), then remove the row. -/
def base_delete (rows : List Row) (obj_id obj_owner_id : Nat) :
    Except HTTPError (List Row) :=
  match row_get_by_id rows obj_id with
  | .error e => .error e
  | .ok _ =>
    if obj_owner_id ≠ obj_id then
      .error ⟨403, "You are not authorized to delete this row"⟩
    else
      .ok (rows.filter (fun v => v.row_id != obj_id))

/-- `utils.hash_password` (bcrypt via passlib).  Bcrypt itself is an
external library out of the embedding's scope; it is modelled as a
deterministic injective tagging function.  What matters for the
properties below is (i) `is_valid_password p (hash_password p)` holds,
(ii) verification fails for any other plaintext, and (iii) a hash is
never its own hash (`hash_password s ≠ s`), all true of real bcrypt. -/
def hash_password (password : String) : String :=
  "$2b$" ++ password

/-- `security.is_valid_password` (`pwd_context.verify`): does the stored
hash match the hash of the supplied plaintext? -/
def is_valid_password (plain_password hashed_password : String) : Bool :=
  hashed_password == hash_password plain_password

/-- `User` row from `app/db/models.py`. -/
structure UserRow where
  user_id : Nat
  email : String
  username : String
  role : String
  password : String
  is_active : Bool
deriving DecidableEq, Repr

/-- `schemas.UserUpdate`: the optional fields of a profile update.  The
schema carries no password field. -/
structure UserUpdate where
  email : Option String := none
  username : Option String := none
  role : Option String := none
deriving DecidableEq, Repr

/-- `sqlmodel_update` on a user row with a `UserUpdate` patch. -/
def user_sqlmodel_update (u : UserRow) (patch : UserUpdate) : UserRow :=
  { u with
    email := patch.email.getD u.email
    username := patch.username.getD u.username
    role := patch.role.getD u.role }

/-- `User.save` from `app/db/models.py`: re-hash whatever currently sits
in the password field, then persist. -/
def user_save (u : UserRow) : UserRow :=
  { u with password := hash_password u.password }

/-- Lookup a user row by primary key. -/
def users_find (users : List UserRow) (uid : Nat) : Option UserRow :=
  users.find? (fun u => u.user_id == uid)

/-- `APICrudBase.update` instantiated at the `User` entity (the one entity
that reaches the base implementation): after the 404/403 checks the row is
patched and saved through `User.save`, which re-hashes the password. -/
def base_user_update (users : List UserRow) (patch : UserUpdate)
    (obj_id obj_owner_id : Nat) :
    Except HTTPError (List UserRow × UserRow) :=
  match users_find users obj_id with
  | none => .error ⟨404, "user not found"⟩
  | some db_obj =>
    if obj_owner_id ≠ obj_id then
      .error ⟨403, "You are not authorized to update this user"⟩
    else
      let u' := user_save (user_sqlmodel_update db_obj patch)
      .ok (users.map (fun v => if v.user_id == obj_id then u' else v), u')

/-- `UserCrud.create`: the unique constraints on email and username make
the insert fail with 409 on a duplicate; otherwise the row is persisted
through `User.save`, so the stored password is the hash of the submitted
plaintext. -/
def user_create (users : List UserRow) (next_uid : Nat)
    (email username role password : String) :
    Except HTTPError (List UserRow × UserRow) :=
  if users.any (fun u => u.email == email || u.username == username) then
    .error ⟨409, "user already exists"⟩
  else
    let u : UserRow :=
      user_save
        { user_id := next_uid
          email := email
          username := username
          role := role
          password := password
          is_active := true }
    .ok (users ++ [u], u)

/-- `settings.secret_key`: the configured signing key (an arbitrary but
fixed string in the model). -/
def settings_secret_key : String := "secret-key"

/-- The claims of a decoded JWT: `sub` and `email`, either possibly
absent (`payload.get` returns `None` when a claim is missing). -/
structure JwtPayload where
  sub : Option Nat
  email : Option String
deriving DecidableEq, Repr

/-- A JWT as issued by `jwt.encode`: its claims plus the key it was signed
with.  `jwt.decode` with the server's key succeeds exactly on tokens
signed with that same key (signature check). -/
structure Jwt where
  payload : JwtPayload
  key : String
deriving DecidableEq, Repr

/-- `schemas.TokenPayload`: the verified subject id and email. -/
structure TokenPayload where
  user_id : Nat
  email : String
deriving DecidableEq, Repr

/-- `security.create_access_token` for the login route's
`{"sub": str(user.user_id), "email": user.email}` payload (expiry is
real-time behaviour, outside the embedding). -/
def create_access_token (sub : Nat) (email : String) : Jwt :=
  { payload := { sub := some sub, email := some email }
    key := settings_secret_key }

/-- The 401 raised by `get_current_user` when verification fails. -/
def credentials_exception : HTTPError :=
  ⟨401, "Could not validate credentials"⟩

/-- `security.verify_access_token`: decode with the server key (signature
mismatch raises `InvalidTokenError` → 401), then require both the `sub`
and `email` claims. -/
def verify_access_token (token : Jwt) : Except HTTPError TokenPayload :=
  if token.key ≠ settings_secret_key then
    .error credentials_exception
  else
    match token.payload.sub, token.payload.email with
    | some uid, some em => .ok { user_id := uid, email := em }
    | _, _ => .error credentials_exception

/-- The single 417 "Invalid credentials" exception of the login route. -/
def invalid_credentials : HTTPError :=
  ⟨417, "Invalid credentials"⟩

/-- The `/login` route: find the first user whose email equals the
submitted username; the same `invalid_credentials` exception is raised
whether the lookup or the hash comparison fails. -/
def login (users : List UserRow) (username password : String) :
    Except HTTPError Jwt :=
  match users.find? (fun u => u.email == username) with
  | none => .error invalid_credentials
  | some user =>
    if is_valid_password password user.password then
      .ok (create_access_token user.user_id user.email)
    else
      .error invalid_credentials

/-! ## Helper lemmas -/

theorem verify_ok_iff (p : Product) (q : Int) :
    verify_product_stock p q = .ok () ↔
      p.in_stock = true ∧ q ≤ p.number_in_stock := by
  unfold verify_product_stock
  cases h : p.in_stock <;> simp [h]

theorem stock_invariant_update (p : Product) (q : Int)
    (hinv : stock_invariant p) (hs : p.in_stock = true)
    (hq : q ≤ p.number_in_stock) :
    stock_invariant (update_product_stock p q) := by
  obtain ⟨h0, hflag⟩ := hinv
  rw [hs] at hflag
  have hpos : 0 < p.number_in_stock := by
    by_contra hc
    simp [show ¬ (0 < p.number_in_stock) from hc] at hflag
  unfold update_product_stock
  by_cases hz : p.number_in_stock - q = 0
  · simp [stock_invariant, hz, hs]
  · simp [stock_invariant, hz, hs]
    omega

theorem mem_save_product {db : DB} {p q : Product}
    (h : q ∈ (save_product db p).products) : q = p ∨ q ∈ db.products := by
  simp only [save_product] at h
  obtain ⟨a, ha, hfa⟩ := List.mem_map.1 h
  by_cases hid : (a.product_id == p.product_id) = true
  · left
    rw [← hfa, if_pos hid]
  · right
    rw [← hfa, if_neg hid]
    exact ha

theorem order_create_item_ok {db : DB} {uid : Nat} {it : OrderProductCreate}
    {db' : DB} {line : Order}
    (h : order_create_item db uid it = .ok (db', line)) :
    ∃ p, find_product db it.product_id = some p ∧
      p.in_stock = true ∧ it.quantity ≤ p.number_in_stock ∧
      db' = save_product
        { db with
          orders := db.orders ++ [⟨db.next_id, it.product_id, uid, it.quantity⟩]
          next_id := db.next_id + 1 }
        (update_product_stock p it.quantity) ∧
      line = ⟨db.next_id, it.product_id, uid, it.quantity⟩ := by
  cases hf : find_product db it.product_id with
  | none => simp [order_create_item, product_get_by_id, hf] at h
  | some p =>
    cases hv : verify_product_stock p it.quantity with
    | error e => simp [order_create_item, product_get_by_id, hf, hv] at h
    | ok u =>
      cases u
      simp only [order_create_item, product_get_by_id, hf, hv,
        Except.ok.injEq, Prod.mk.injEq] at h
      obtain ⟨hdb, hline⟩ := h
      obtain ⟨hs, hq⟩ := (verify_ok_iff p it.quantity).1 hv
      exact ⟨p, rfl, hs, hq, hdb.symm, hline.symm⟩

theorem order_create_item_inv {db : DB} {uid : Nat} {it : OrderProductCreate}
    {db' : DB} {line : Order}
    (hdb : ∀ p ∈ db.products, stock_invariant p)
    (h : order_create_item db uid it = .ok (db', line)) :
    ∀ p ∈ db'.products, stock_invariant p := by
  obtain ⟨p, hf, hs, hq, rfl, -⟩ := order_create_item_ok h
  intro r hr
  rcases mem_save_product hr with rfl | hmem
  · exact stock_invariant_update p it.quantity
      (hdb p (List.mem_of_find?_eq_some hf)) hs hq
  · exact hdb r hmem

theorem order_create_loop_inv (uid : Nat) :
    ∀ (items : List OrderProductCreate) (db : DB) (acc : Option Order),
      (∀ p ∈ db.products, stock_invariant p) →
      ∀ p ∈ (order_create_loop uid db items acc).1.products, stock_invariant p
  | [], _, none, hdb => hdb
  | [], _, some _, hdb => hdb
  | it :: rest, db, acc, hdb => by
    unfold order_create_loop
    cases h : order_create_item db uid it with
    | error e => exact hdb
    | ok r =>
      obtain ⟨db', line⟩ := r
      exact order_create_loop_inv uid rest db' (some line)
        (order_create_item_inv hdb h)

theorem order_update_item_inv {state : DB × Order} {it : OrderProductCreate}
    {db' : DB} {line' : Order}
    (hdb : ∀ p ∈ state.1.products, stock_invariant p)
    (h : order_update_item state it = .ok (db', line')) :
    ∀ p ∈ db'.products, stock_invariant p := by
  cases hf : find_product state.1 it.product_id with
  | none => simp [order_update_item, product_get_by_id, hf] at h
  | some p =>
    cases hv : verify_product_stock p it.quantity with
    | error e => simp [order_update_item, product_get_by_id, hf, hv] at h
    | ok u =>
      cases u
      simp only [order_update_item, product_get_by_id, hf, hv,
        Except.ok.injEq, Prod.mk.injEq] at h
      obtain ⟨hdb', -⟩ := h
      obtain ⟨hs, hq⟩ := (verify_ok_iff p it.quantity).1 hv
      subst hdb'
      intro r hr
      rcases mem_save_product hr with rfl | hmem
      · exact stock_invariant_update p it.quantity
          (hdb p (List.mem_of_find?_eq_some hf)) hs hq
      · exact hdb r hmem

theorem order_update_loop_inv :
    ∀ (items : List OrderProductCreate) (state : DB × Order),
      (∀ p ∈ state.1.products, stock_invariant p) →
      ∀ p ∈ (order_update_loop state items).1.products, stock_invariant p
  | [], _, hdb => hdb
  | it :: rest, state, hdb => by
    show ∀ p ∈ (match order_update_item state it with
      | .error e => (state.1, (Except.error e : Except HTTPError Order))
      | .ok state' => order_update_loop state' rest).1.products,
      stock_invariant p
    cases hi : order_update_item state it with
    | error e => exact hdb
    | ok state' =>
      obtain ⟨dbn, linen⟩ := state'
      exact order_update_loop_inv rest (dbn, linen)
        (order_update_item_inv hdb hi)

theorem order_create_loop_cons (uid : Nat) (db : DB)
    (it : OrderProductCreate) (rest : List OrderProductCreate)
    (acc : Option Order) :
    order_create_loop uid db (it :: rest) acc =
      match order_create_item db uid it with
      | .error e => (db, .error (.http e))
      | .ok (db', line) => order_create_loop uid db' rest (some line) :=
  rfl

theorem order_create_loop_append (uid : Nat) :
    ∀ (xs : List OrderProductCreate) (db : DB) (acc : Option Order)
      (ys : List OrderProductCreate) (db' : DB) (last : Order),
      order_create_loop uid db xs acc = (db', .ok last) →
      order_create_loop uid db (xs ++ ys) acc =
        order_create_loop uid db' ys (some last)
  | [], db, none, ys, db', last, h => by
    simp [order_create_loop] at h
  | [], db, some l, ys, db', last, h => by
    simp only [order_create_loop, Prod.mk.injEq, Except.ok.injEq] at h
    obtain ⟨rfl, rfl⟩ := h
    rfl
  | x :: xs, db, acc, ys, db', last, h => by
    rw [order_create_loop_cons] at h
    rw [List.cons_append, order_create_loop_cons]
    cases hi : order_create_item db uid x with
    | error e =>
      rw [hi] at h
      simp at h
    | ok r =>
      obtain ⟨dbn, line⟩ := r
      rw [hi] at h
      exact order_create_loop_append uid xs dbn (some line) ys db' last h

/-! ## Claim theorems -/

/-- C1, counterexample: a product satisfying the stock invariant
(`number_in_stock = 5`, `in_stock = true`), updated through
`ProductCrud.update` by its owner with only `number_in_stock := 0` set,
comes out with `number_in_stock = 0` and `in_stock` still `true` — the
mutation succeeds and breaks the invariant, so not every mutation path
preserves it. -/
theorem product_update_breaks_stock_invariant :
    stock_invariant ⟨1, "P", "d", true, 5, 7⟩ ∧
    product_update ⟨[⟨1, "P", "d", true, 5, 7⟩], [], 10⟩ 1
        ⟨none, none, none, some 0, 7⟩ =
      .ok (⟨[⟨1, "P", "d", true, 0, 7⟩], [], 10⟩, ⟨1, "P", "d", true, 0, 7⟩) ∧
    ¬ stock_invariant ⟨1, "P", "d", true, 0, 7⟩ :=
  ⟨by decide, by decide, by decide⟩

/-- C1, amended: the two order-engine mutation paths (`OrderCrud.create`
and `OrderCrud.update`) preserve the stock invariant on every product in
the store they leave behind — also on the partially-committed store of a
failing request; `ProductCrud.create` leaves every pre-existing product
untouched and inserts the submitted fields verbatim, so the created row
satisfies the invariant exactly when the submitted fields do; but
`ProductCrud.update` does not preserve the invariant (it writes the
caller-supplied fields verbatim; see the counterexample). -/
theorem order_paths_preserve_stock_invariant :
    (∀ (db : DB) (items : List OrderProductCreate) (uid : Nat),
      (∀ p ∈ db.products, stock_invariant p) →
      ∀ p ∈ (order_create db items uid).1.products, stock_invariant p) ∧
    (∀ (db : DB) (oid : Nat) (items : List OrderProductCreate) (uid : Nat),
      (∀ p ∈ db.products, stock_invariant p) →
      ∀ p ∈ (order_update db oid items uid).1.products, stock_invariant p) ∧
    (∀ (db : DB) (c : ProductCreate),
      ((∀ p ∈ db.products, stock_invariant p) →
        ∀ p ∈ (product_create db c).1.products,
          stock_invariant p ∨ p = (product_create db c).2) ∧
      (stock_invariant (product_create db c).2 ↔
        0 ≤ c.number_in_stock ∧
          c.in_stock = decide (0 < c.number_in_stock))) := by
  refine ⟨?_, ?_, ?_⟩
  · intro db items uid hdb
    exact order_create_loop_inv uid items db none hdb
  · intro db oid items uid hdb
    cases hg : order_get_by_id db oid with
    | error e =>
      simp only [order_update, hg]
      exact hdb
    | ok o =>
      simp only [order_update, hg]
      by_cases hu : o.user_id ≠ uid
      · rw [if_pos hu]
        exact hdb
      · rw [if_neg hu]
        exact order_update_loop_inv items (db, o) hdb
  · intro db c
    constructor
    · intro hdb p hp
      simp only [product_create, List.mem_append] at hp
      rcases hp with hmem | hnew
      · exact Or.inl (hdb p hmem)
      · simp only [List.mem_singleton] at hnew
        exact Or.inr hnew
    · exact Iff.rfl

/-- C1, witness: running the invariant-preservation theorem on a concrete
store with one product `(5, in_stock)` and one order of quantity 3 shows
the resulting product `(2, in_stock)` satisfies the invariant. -/
theorem order_paths_preserve_stock_invariant_witness :
    stock_invariant ⟨1, "P", "d", true, 2, 7⟩ :=
  order_paths_preserve_stock_invariant.1
    ⟨[⟨1, "P", "d", true, 5, 7⟩], [], 10⟩ [⟨3, 1⟩] 3
    (by decide) ⟨1, "P", "d", true, 2, 7⟩ (by decide)

/-- C2: when the product of an order item is loaded, the stock check
rejects an out-of-stock product with 409 Conflict, rejects insufficient
stock with 400, and a failing item makes `OrderCrud.create` return with
the store exactly as it was when that item was reached — nothing is
persisted and no decrement is applied for the failing item. -/
theorem order_item_stock_check :
    ∀ (db : DB) (uid : Nat) (it : OrderProductCreate) (p : Product),
      find_product db it.product_id = some p →
      (p.in_stock = false →
        order_create_item db uid it =
          .error ⟨409, "Product " ++ p.name ++ " is out of stock"⟩) ∧
      (p.in_stock = true → p.number_in_stock < it.quantity →
        order_create_item db uid it =
          .error ⟨400, "Product " ++ p.name ++ " has only " ++
            toString p.number_in_stock ++ " items left"⟩) ∧
      (∀ (e : HTTPError) (rest : List OrderProductCreate)
        (acc : Option Order),
        order_create_item db uid it = .error e →
        order_create_loop uid db (it :: rest) acc =
          (db, .error (.http e))) := by
  intro db uid it p hf
  refine ⟨fun hs => ?_, fun hs hlt => ?_, fun e rest acc he => ?_⟩
  · simp [order_create_item, product_get_by_id, hf, verify_product_stock, hs]
  · simp [order_create_item, product_get_by_id, hf, verify_product_stock,
      hs, hlt]
  · unfold order_create_loop
    rw [he]

/-- C2, witness: an out-of-stock product produces the 409 error at a
concrete store. -/
theorem order_item_stock_check_witness :
    order_create_item ⟨[⟨1, "P", "d", false, 0, 7⟩], [], 5⟩ 3 ⟨1, 1⟩ =
      .error ⟨409, "Product P is out of stock"⟩ :=
  (order_item_stock_check ⟨[⟨1, "P", "d", false, 0, 7⟩], [], 5⟩ 3 ⟨1, 1⟩
    ⟨1, "P", "d", false, 0, 7⟩ (by decide)).1 (by decide)

/-- C3: items are processed strictly in submission order — after a prefix
`xs` succeeds, ending in store `db'`, the next item `y` is evaluated
against `db'` (so it observes the decremented stock), and when it succeeds
the value returned by `OrderCrud.create` is exactly the order line created
for `y`, the last item, never an earlier line. -/
theorem order_create_sequential_last :
    ∀ (db : DB) (uid : Nat) (xs : List OrderProductCreate)
      (y : OrderProductCreate) (db' : DB) (last : Order),
      order_create_loop uid db xs none = (db', .ok last) →
      order_create db (xs ++ [y]) uid =
        match order_create_item db' uid y with
        | .ok (db2, line) => (db2, .ok line)
        | .error e => (db', .error (.http e)) := by
  intro db uid xs y db' last h
  unfold order_create
  rw [order_create_loop_append uid xs db none [y] db' last h]
  cases hi : order_create_item db' uid y with
  | error e => simp [order_create_loop, hi]
  | ok r =>
    obtain ⟨db2, line⟩ := r
    simp [order_create_loop, hi]

/-- C3, witness: a two-item order for the same product; the second item
sees stock 2 (not 5), and the returned line is the second one. -/
theorem order_create_sequential_last_witness :
    order_create ⟨[⟨1, "P", "d", true, 5, 7⟩], [], 10⟩ [⟨3, 1⟩, ⟨2, 1⟩] 3 =
      (⟨[⟨1, "P", "d", false, 0, 7⟩], [⟨10, 1, 3, 3⟩, ⟨11, 1, 3, 2⟩], 12⟩,
        .ok ⟨11, 1, 3, 2⟩) :=
  order_create_sequential_last
    ⟨[⟨1, "P", "d", true, 5, 7⟩], [], 10⟩ 3 [⟨3, 1⟩] ⟨2, 1⟩
    ⟨[⟨1, "P", "d", true, 2, 7⟩], [⟨10, 1, 3, 3⟩], 11⟩ ⟨10, 1, 3, 3⟩
    (by decide)

/-- C4, counterexample: the generic `APICrudBase.get_all` does not clamp
the caller-supplied `limit` — a store of 101 products queried with
`limit = 101` returns 101 rows, above the configured maximum of 100. -/
theorem base_get_all_no_clamp :
    ¬ ∀ (rows : List Product) (skip limit : Nat),
        (base_get_all rows skip limit).length ≤ settings_pagination_limit :=
  fun h =>
    absurd (h (List.replicate 101 ⟨1, "P", "d", true, 1, 7⟩) 0 101)
      (by decide)

/-- C4, amended: the generic `get_all` applies `skip`/`limit` to the row
list exactly as supplied, with no clamping; the clamp to
`settings.pagination_limit` exists only in the user-scoped listings
(`UserCrud.get_orders`), whose result never exceeds the configured
maximum. -/
theorem pagination_clamp_only_in_user_listings :
    (∀ (user_orders : List Order) (skip limit : Nat),
      (user_get_orders user_orders skip limit).length ≤
        settings_pagination_limit) ∧
    (∀ (rows : List Product) (skip limit : Nat),
      base_get_all rows skip limit = (rows.drop skip).take limit) := by
  constructor
  · intro os skip limit
    simp only [user_get_orders, settings_pagination_limit, List.length_take]
    omega
  · intro rows skip limit
    rfl

/-- C9: `OrderCrud.create` called with an empty item list runs the loop
zero times, so no order line is created and no stock is decremented — and
the `return new_order_product` statement reads a never-assigned local,
raising `UnboundLocalError` instead of returning a value. -/
theorem order_create_empty_unbound (db : DB) (uid : Nat) :
    order_create db [] uid = (db, .error .unboundLocal) :=
  rfl

/-- C6: the spec's scenario — stock 5: ordering 3 succeeds leaving
`(2, in_stock)`; ordering 2 succeeds leaving `(0, out-of-stock)`;
ordering 1 then fails with 409 Conflict and changes nothing. -/
theorem order_scenario_5_3_2_1 :
    order_create ⟨[⟨1, "P", "d", true, 5, 7⟩], [], 10⟩ [⟨3, 1⟩] 3 =
      (⟨[⟨1, "P", "d", true, 2, 7⟩], [⟨10, 1, 3, 3⟩], 11⟩,
        .ok ⟨10, 1, 3, 3⟩) ∧
    order_create ⟨[⟨1, "P", "d", true, 2, 7⟩], [⟨10, 1, 3, 3⟩], 11⟩
        [⟨2, 1⟩] 3 =
      (⟨[⟨1, "P", "d", false, 0, 7⟩], [⟨10, 1, 3, 3⟩, ⟨11, 1, 3, 2⟩], 12⟩,
        .ok ⟨11, 1, 3, 2⟩) ∧
    order_create ⟨[⟨1, "P", "d", false, 0, 7⟩],
        [⟨10, 1, 3, 3⟩, ⟨11, 1, 3, 2⟩], 12⟩ [⟨1, 1⟩] 3 =
      (⟨[⟨1, "P", "d", false, 0, 7⟩], [⟨10, 1, 3, 3⟩, ⟨11, 1, 3, 2⟩], 12⟩,
        .error (.http ⟨409, "Product P is out of stock"⟩)) :=
  ⟨by decide, by decide, by decide⟩

/-- C5: the generic base `update`/`delete` first raise 404 when no row has
the requested id; otherwise they raise 403 exactly when the supplied
`obj_owner_id` differs from the target row's own identifier `obj_id`
(when the two match, `delete` succeeds and removes exactly that row); and
when the check passes, `update` succeeds and writes back the row with
exactly the set fields of the partial schema overwritten (unset fields and
the primary key are untouched). -/
theorem base_update_delete_auth :
    ∀ (rows : List Row) (schema : RowPatch) (obj_id obj_owner_id : Nat),
      (rows.find? (fun r => r.row_id == obj_id) = none →
        base_update rows schema obj_id obj_owner_id =
          .error ⟨404, "row not found"⟩ ∧
        base_delete rows obj_id obj_owner_id =
          .error ⟨404, "row not found"⟩) ∧
      (∀ r, rows.find? (fun r => r.row_id == obj_id) = some r →
        (obj_owner_id ≠ obj_id →
          base_update rows schema obj_id obj_owner_id =
            .error ⟨403, "You are not authorized to update this row"⟩ ∧
          base_delete rows obj_id obj_owner_id =
            .error ⟨403, "You are not authorized to delete this row"⟩) ∧
        (obj_owner_id = obj_id →
          base_update rows schema obj_id obj_owner_id =
            .ok (rows.map (fun v => if v.row_id == obj_id then
                row_sqlmodel_update r schema else v),
              row_sqlmodel_update r schema) ∧
          base_delete rows obj_id obj_owner_id =
            .ok (rows.filter (fun v => v.row_id != obj_id)) ∧
          (row_sqlmodel_update r schema).row_id = r.row_id ∧
          (schema.field_a = none →
            (row_sqlmodel_update r schema).field_a = r.field_a) ∧
          (∀ v, schema.field_a = some v →
            (row_sqlmodel_update r schema).field_a = v) ∧
          (schema.field_b = none →
            (row_sqlmodel_update r schema).field_b = r.field_b) ∧
          (∀ v, schema.field_b = some v →
            (row_sqlmodel_update r schema).field_b = v))) := by
  intro rows schema obj_id own
  refine ⟨fun hn => ⟨?_, ?_⟩,
    fun r hr => ⟨fun hne => ⟨?_, ?_⟩,
      fun heq => ⟨?_, ?_, rfl, fun h => ?_, fun v hv => ?_,
        fun h => ?_, fun v hv => ?_⟩⟩⟩
  · simp [base_update, row_get_by_id, hn]
  · simp [base_delete, row_get_by_id, hn]
  · simp [base_update, row_get_by_id, hr, hne]
  · simp [base_delete, row_get_by_id, hr, hne]
  · simp [base_update, row_get_by_id, hr, heq]
  · simp [base_delete, row_get_by_id, hr, heq]
  · simp [row_sqlmodel_update, h]
  · simp [row_sqlmodel_update, hv]
  · simp [row_sqlmodel_update, h]
  · simp [row_sqlmodel_update, hv]

/-- C5, witness: updating row 1 as owner 1 with only `field_a` set
overwrites `field_a` and keeps `field_b`. -/
theorem base_update_delete_auth_witness :
    base_update [⟨1, "a", "b"⟩] ⟨some "x", none⟩ 1 1 =
      .ok ([⟨1, "x", "b"⟩], ⟨1, "x", "b"⟩) :=
  (((base_update_delete_auth [⟨1, "a", "b"⟩] ⟨some "x", none⟩ 1 1).2
    ⟨1, "a", "b"⟩ (by decide)).2 rfl).1

/-- C7: `OrderCrud.delete` raises 403 exactly when the caller is not the
line's buyer and otherwise removes the row; in every successful outcome
the product rows of the store are byte-for-byte unchanged — deletion never
restocks. -/
theorem order_delete_auth_no_restock :
    ∀ (db : DB) (oid uid : Nat) (o : Order),
      find_order db oid = some o →
      (o.user_id ≠ uid →
        order_delete db oid uid =
          .error ⟨403, "You are not authorized to delete this order"⟩) ∧
      (o.user_id = uid →
        order_delete db oid uid =
          .ok { db with
                orders := db.orders.filter (fun x => x.order_id != oid) }) ∧
      (∀ db', order_delete db oid uid = .ok db' →
        db'.products = db.products) := by
  intro db oid uid o hf
  have hg : order_get_by_id db oid = .ok o := by
    simp [order_get_by_id, hf]
  refine ⟨fun hne => ?_, fun heq => ?_, fun db' h => ?_⟩
  · simp [order_delete, hg, hne]
  · simp [order_delete, hg, heq]
  · simp only [order_delete, hg] at h
    by_cases hu : o.user_id ≠ uid
    · rw [if_pos hu] at h
      simp at h
    · rw [if_neg hu] at h
      simp only [Except.ok.injEq] at h
      rw [← h]

/-- C7, witness: a non-buyer caller gets the 403 at a concrete store. -/
theorem order_delete_auth_no_restock_witness :
    order_delete ⟨[⟨1, "P", "d", true, 5, 7⟩], [⟨5, 1, 3, 2⟩], 6⟩ 5 9 =
      .error ⟨403, "You are not authorized to delete this order"⟩ :=
  (order_delete_auth_no_restock ⟨[⟨1, "P", "d", true, 5, 7⟩],
    [⟨5, 1, 3, 2⟩], 6⟩ 5 9 ⟨5, 1, 3, 2⟩ (by decide)).1 (by decide)

theorem hash_password_injective {a b : String}
    (h : hash_password a = hash_password b) : a = b := by
  have hd : a.data = b.data := by
    have hc := congrArg String.data h
    simpa [hash_password] using hc
  exact String.ext hd

theorem hash_password_ne (s : String) : hash_password s ≠ s := by
  intro h
  have hl := congrArg String.length h
  simp only [hash_password, String.length_append] at hl
  have h4 : ("$2b$" : String).length = 4 := rfl
  omega

/-- C8: creating a user and authenticating with the same email and
password succeeds and yields a token that `verify_access_token` resolves
to the created user's id and email; a wrong password or an email matching
no user both produce the identical `invalid_credentials` error, so the
response does not distinguish the two cases. -/
theorem auth_round_trip :
    ∀ (users : List UserRow) (next_uid : Nat)
      (email username role password : String)
      (users' : List UserRow) (u : UserRow),
      user_create users next_uid email username role password =
        .ok (users', u) →
      u.user_id = next_uid ∧
      login users' email password =
        .ok (create_access_token u.user_id u.email) ∧
      verify_access_token (create_access_token u.user_id u.email) =
        .ok ⟨u.user_id, u.email⟩ ∧
      (∀ p', p' ≠ password →
        login users' email p' = .error invalid_credentials) ∧
      (∀ e', (∀ v ∈ users', v.email ≠ e') →
        login users' e' password = .error invalid_credentials) := by
  intro users next_uid email username role password users' u h
  by_cases hdup :
    users.any (fun v => v.email == email || v.username == username) = true
  · simp [user_create, hdup] at h
  · simp only [user_create] at h
    rw [if_neg hdup] at h
    simp only [Except.ok.injEq, Prod.mk.injEq] at h
    obtain ⟨husers, huser⟩ := h
    subst husers
    subst huser
    have hemail : ∀ v ∈ users, v.email ≠ email := by
      intro v hv hEq
      exact hdup (List.any_eq_true.2 ⟨v, hv, by simp [hEq]⟩)
    have hnone : users.find? (fun v => v.email == email) = none :=
      List.find?_eq_none.2 (fun v hv => by simp [hemail v hv])
    have hfind :
        (users ++ [user_save
            ⟨next_uid, email, username, role, password, true⟩]).find?
          (fun v => v.email == email) =
          some (user_save ⟨next_uid, email, username, role, password, true⟩) := by
      rw [List.find?_append, hnone, Option.none_or]
      simp [user_save]
    refine ⟨rfl, ?_, ?_, ?_, ?_⟩
    · simp [login, hfind, hnone, is_valid_password, user_save]
    · simp [verify_access_token, create_access_token]
    · intro p' hp'
      have hvp : hash_password password ≠ hash_password p' :=
        fun hc => hp' (hash_password_injective hc).symm
      simp [login, hfind, hnone, is_valid_password, user_save, hvp]
    · intro e' he'
      have hn2 :
          (users ++ [user_save
              ⟨next_uid, email, username, role, password, true⟩]).find?
            (fun v => v.email == e') = none :=
        List.find?_eq_none.2 (fun v hv => by simp [he' v hv])
      simp [login, hn2]

/-- C8, witness: a concrete user can log in with their email and password
and gets a token signed over their id. -/
theorem auth_round_trip_witness :
    login [⟨0, "a@b.c", "al", "buyer", "$2b$pw123456", true⟩] "a@b.c"
        "pw123456" =
      .ok (create_access_token 0 "a@b.c") :=
  (auth_round_trip [] 0 "a@b.c" "al" "buyer" "pw123456"
    [⟨0, "a@b.c", "al", "buyer", "$2b$pw123456", true⟩]
    ⟨0, "a@b.c", "al", "buyer", "$2b$pw123456", true⟩ (by decide)).2.1

/-- C10: every successful pass of a user row through the generic base
`update` re-applies the password hash to the already-hashed stored value
(the profile patch carries no password field), so afterwards the stored
password is `hash(previous stored hash)` and verifying the original
plaintext against it fails. -/
theorem user_profile_update_rehashes :
    ∀ (users : List UserRow) (patch : UserUpdate) (obj_id obj_owner_id : Nat)
      (users' : List UserRow) (u' u : UserRow),
      users_find users obj_id = some u →
      base_user_update users patch obj_id obj_owner_id = .ok (users', u') →
      u'.password = hash_password u.password ∧
      (∀ p, u.password = hash_password p →
        is_valid_password p u'.password = false) := by
  intro users patch obj_id own users' u' u hu h
  simp only [base_user_update, hu] at h
  by_cases how : own ≠ obj_id
  · rw [if_pos how] at h
    simp at h
  · rw [if_neg how] at h
    simp only [Except.ok.injEq, Prod.mk.injEq] at h
    obtain ⟨-, hu'⟩ := h
    subst hu'
    refine ⟨by simp [user_save, user_sqlmodel_update], fun p hp => ?_⟩
    have hpw : (user_save (user_sqlmodel_update u patch)).password =
        hash_password (hash_password p) := by
      simp [user_save, user_sqlmodel_update, hp]
    rw [hpw]
    simp only [is_valid_password]
    exact beq_eq_false_iff_ne.2 (hash_password_ne (hash_password p))

/-- C10, witness: after a profile update the stored password is the
double hash, and the original plaintext no longer verifies against it. -/
theorem user_profile_update_rehashes_witness :
    is_valid_password "pw123456" "$2b$$2b$pw123456" = false :=
  (user_profile_update_rehashes
    [⟨1, "a@b.c", "al", "buyer", "$2b$pw123456", true⟩] ⟨none, none, none⟩
    1 1 [⟨1, "a@b.c", "al", "buyer", "$2b$$2b$pw123456", true⟩]
    ⟨1, "a@b.c", "al", "buyer", "$2b$$2b$pw123456", true⟩
    ⟨1, "a@b.c", "al", "buyer", "$2b$pw123456", true⟩
    (by decide) (by decide)).2 "pw123456" (by decide)
